import Mathlib

/-!
Verification development for the CubeHarvest cluster-visualization game
(`src/main.rs`).  The definitions below shallowly embed the parts of the
program the properties talk about:

* the workload/node snapshot data model (`Pod`, the label and address
  accessors `get_unit_type`, `get_unit_ip`, and the `TARGET` lookup done by
  the accrual routine);
* the per-frame interactive state machine of `draw` (navigation modes,
  creation flow, per-frame price recomputation and index reclamping);
* the credit economy (`earn_credits`, `consume_credits`, and the guarded
  purchase deduction in the creation flow);
* the synchronization loop's once-per-cycle non-blocking drain of the
  creation-command channel.

Machine integers are modelled as `Nat`/`Int` with explicit saturation or
checked subtraction where the source uses `saturating_add`/`saturating_sub`
or where an unsigned subtraction can underflow (`nodes_len - 1`); fallible
computations (a `usize` underflow, the out-of-bounds `containers[0]` index)
return `Option`, with `none` marking the fault.
-/

/-! ### Cluster snapshot data model (k8s `Pod` as used by the program) -/

/-- An environment variable of a container (`EnvVar { name, value }`). -/
structure EnvVar where
  name : String
  value : Option String
  deriving DecidableEq

/-- A container; the program only reads its `env` list. -/
structure Container where
  env : Option (List EnvVar)
  deriving DecidableEq

/-- A pod spec; the program reads `containers` (indexing `containers[0]`)
and `node_name`. -/
structure PodSpec where
  containers : List Container
  node_name : Option String
  deriving DecidableEq

/-- A pod status; the program only reads `pod_ip`. -/
structure PodStatus where
  pod_ip : Option String
  deriving DecidableEq

/-- Object metadata: the optional name and the label map (modelled as an
association list). -/
structure ObjectMeta where
  name : Option String
  labels : Option (List (String × String))
  deriving DecidableEq

/-- A workload ("Pod"): the fields of `k8s_openapi::api::core::v1::Pod`
that `main.rs` reads. -/
structure Pod where
  metadata : ObjectMeta
  spec : Option PodSpec
  status : Option PodStatus
  deriving DecidableEq

/-- Label lookup in the association-list model of the label map. -/
def lookupLabel (labels : List (String × String)) (k : String) : Option String :=
  (labels.find? (fun kv => kv.1 = k)).map (fun kv => kv.2)

/-- `get_unit_type` (main.rs:720-725): the `cube-harvest.io/unit-type`
label of a pod, when present. -/
def get_unit_type (p : Pod) : Option String :=
  p.metadata.labels.bind (fun l => lookupLabel l "cube-harvest.io/unit-type")

/-- `get_unit_ip` (main.rs:627-629): `p.status.and_then(|s| s.pod_ip)`. -/
def get_unit_ip (p : Pod) : Option String :=
  p.status.bind (fun s => s.pod_ip)

/-- Does the pod carry the label value "miner"? -/
def isMiner (p : Pod) : Bool :=
  get_unit_type p = some "miner"

/-- Does the pod carry the label value "processor"? -/
def isProcessor (p : Pod) : Bool :=
  get_unit_type p = some "processor"

/-- The `TARGET` lookup the accrual routine performs on a miner pod
(main.rs:588-596):
`p.spec.and_then(|s| s.containers[0].env).and_then(find TARGET).and_then(value)`.
The outer `Option` is the fault monad: `none` means the unguarded
`containers[0]` index was out of bounds (a panic in the source); the inner
`Option String` is the looked-up target value. -/
def minerTargetIp (p : Pod) : Option (Option String) :=
  match p.spec with
  | none => some none
  | some s =>
    match s.containers with
    | [] => none
    | c :: _ =>
      some (c.env.bind (fun es =>
        (es.find? (fun e => e.name = "TARGET")).bind (fun e => e.value)))

/-! ### usize arithmetic helpers -/

/-- `usize::MAX` on the 64-bit targets the program builds for. -/
def USIZE_MAX : Nat := 2 ^ 64 - 1

/-- `usize::saturating_add`. -/
def usizeSatAdd (a b : Nat) : Nat :=
  min (a + b) USIZE_MAX

/-- Checked `usize` subtraction: `none` is the underflow fault
(a panic under debug assertions). -/
def usizeSub (a b : Nat) : Option Nat :=
  if b ≤ a then some (a - b) else none

/-- Wrapping `usize` subtraction (release-mode two's-complement wrap),
for arguments below `2 ^ 64`. -/
def usizeWrapSub (a b : Nat) : Nat :=
  (a + 2 ^ 64 - b) % 2 ^ 64

/-- macroquad's `clamp(value, min, max)`:
`if value < min { min } else if value > max { max } else { value }`. -/
def clampNat (v lo hi : Nat) : Nat :=
  if v < lo then lo else if v > hi then hi else v

/-! ### Interactive game state and the per-frame update of `draw` -/

/-- `NavigationMode` (main.rs:86-91). -/
inductive NavigationMode where
  | Cluster
  | Node
  | Create
  deriving DecidableEq

/-- `CreateTarget` (main.rs:93-97). -/
inductive CreateTarget where
  | Miner
  | Processor
  deriving DecidableEq

/-- `GameState` (main.rs:99-108). -/
structure GState where
  selected_node_index : Nat
  navigation_mode : NavigationMode
  create_target : Option CreateTarget
  create_text_buf : String
  credits : Nat
  miner_price : Nat
  processor_price : Nat
  deriving DecidableEq

/-- The initial `GameState` stored by `draw` (main.rs:196-204). -/
def initGState : GState :=
  { selected_node_index := 0
    navigation_mode := NavigationMode.Cluster
    create_target := none
    create_text_buf := ""
    credits := 0
    miner_price := 0
    processor_price := 0 }

/-- `AstroUnitTemplate` (main.rs:53-59): the creation command's payload as
built in the source, before template rendering. -/
structure AstroUnitTemplate where
  name : String
  target_ip : String
  unit_type : String
  deriving DecidableEq

/-- The key/character inputs one frame can observe, plus the pseudo-random
id `rand::rand()` would produce if a unit is created this frame. -/
structure FrameInput where
  right : Bool
  left : Bool
  enter : Bool
  escape : Bool
  keyC : Bool
  keyM : Bool
  keyP : Bool
  keyD : Bool
  backspace : Bool
  charPressed : Option Char
  randId : Nat
  deriving DecidableEq

/-- A frame with no key pressed and no typed character. -/
def idleInput : FrameInput :=
  { right := false, left := false, enter := false, escape := false
    keyC := false, keyM := false, keyP := false, keyD := false
    backspace := false, charPressed := none, randId := 0 }

/-- The unit-type string of a creation target (main.rs:549-553). -/
def unitTypeStr : CreateTarget → String
  | CreateTarget.Miner => "miner"
  | CreateTarget.Processor => "processor"

/-- `create_unit` (main.rs:547-564) up to template rendering: the
`AstroUnitTemplate` value `{ name: "<kind>-<id>", target_ip: buf, unit_type }`.
The pseudo-random `unit_id` is passed in explicitly. -/
def create_unit (gs : GState) (target : CreateTarget) (unit_id : Nat) : AstroUnitTemplate :=
  { name := unitTypeStr target ++ "-" ++ toString unit_id
    target_ip := gs.create_text_buf
    unit_type := unitTypeStr target }

/-- `String::pop`: drop the last character (no-op on an empty buffer). -/
def stringPop (s : String) : String :=
  s.dropRight 1

/-- The number of pods whose unit-type label is `k` — the source of the
per-frame `miner_price` / `processor_price` recomputation (main.rs:256-269). -/
def countKind (pods : List Pod) (k : String) : Nat :=
  (pods.filter (fun p => get_unit_type p = some k)).length

/-- The price checked and deducted for a target, as recomputed this frame
from the snapshot (main.rs:258-267, 373-380). -/
def targetPrice (pods : List Pod) : CreateTarget → Nat
  | CreateTarget.Miner => countKind pods "miner"
  | CreateTarget.Processor => countKind pods "processor"

/-- The navigation-mode `match` of the Playing branch (main.rs:322-412):
per-frame input handling.  Returns the updated state and the list of
creation commands sent on the channel this frame (as their
`AstroUnitTemplate` payloads). -/
def navUpdate (gs : GState) (inp : FrameInput) : GState × List AstroUnitTemplate :=
  match gs.navigation_mode with
  | NavigationMode.Cluster =>
    let gs1 := if inp.right then
        { gs with selected_node_index := usizeSatAdd gs.selected_node_index 1 }
      else gs
    let gs2 := if inp.left then
        { gs1 with selected_node_index := gs1.selected_node_index - 1 }
      else gs1
    let gs3 := if inp.enter then { gs2 with navigation_mode := NavigationMode.Node } else gs2
    let gs4 := if inp.keyC then
        { gs3 with navigation_mode := NavigationMode.Create
                   create_text_buf := ""
                   create_target := none }
      else gs3
    (gs4, [])
  | NavigationMode.Node =>
    let gs1 := if inp.escape then { gs with navigation_mode := NavigationMode.Cluster } else gs
    (gs1, [])
  | NavigationMode.Create =>
    match gs.create_target with
    | none =>
      let gs1 := if inp.escape then { gs with navigation_mode := NavigationMode.Cluster } else gs
      let gs2 := if inp.keyM then { gs1 with create_target := some CreateTarget.Miner } else gs1
      let gs3 := if inp.keyP then { gs2 with create_target := some CreateTarget.Processor } else gs2
      (gs3, [])
    | some target =>
      if inp.enter || (target = CreateTarget.Processor) then
        let price := match target with
          | CreateTarget.Miner => gs.miner_price
          | CreateTarget.Processor => gs.processor_price
        if price ≤ gs.credits then
          let cmd := create_unit gs target inp.randId
          ({ gs with credits := gs.credits - price
                     navigation_mode := NavigationMode.Cluster }, [cmd])
        else
          ({ gs with navigation_mode := NavigationMode.Cluster }, [])
      else if inp.escape then
        ({ gs with navigation_mode := NavigationMode.Cluster }, [])
      else if inp.backspace then
        ({ gs with create_text_buf := stringPop gs.create_text_buf }, [])
      else
        match inp.charPressed with
        | some ch =>
          if ch.isDigit || ch = '.' then
            ({ gs with create_text_buf := gs.create_text_buf.push ch }, [])
          else (gs, [])
        | none => (gs, [])

/-- One Playing-stage frame over a fixed snapshot (`pods`, `nodesLen`):
recompute the prices from the snapshot (main.rs:256-269), run the
navigation update (main.rs:322-412), then reclamp the selected node index
with `clamp(idx, 0, nodes_len - 1)` (main.rs:451-452) and store the result.
`none` is the `usize` underflow fault of `nodes_len - 1` when the node
list is empty. -/
def frameUpdate (pods : List Pod) (nodesLen : Nat) (gs : GState) (inp : FrameInput) :
    Option (GState × List AstroUnitTemplate) :=
  let gs0 := { gs with miner_price := countKind pods "miner"
                       processor_price := countKind pods "processor" }
  let r := navUpdate gs0 inp
  match usizeSub nodesLen 1 with
  | none => none
  | some ub =>
    some ({ r.1 with selected_node_index := clampNat r.1.selected_node_index 0 ub }, r.2)

/-- A sequence of frames over a fixed snapshot, accumulating the creation
commands sent; faults propagate. -/
def frameRunFixed (pods : List Pod) (nodesLen : Nat) (gs : GState) :
    List FrameInput → Option (GState × List AstroUnitTemplate)
  | [] => some (gs, [])
  | inp :: rest =>
    (frameUpdate pods nodesLen gs inp).bind (fun r =>
      (frameRunFixed pods nodesLen r.1 rest).map (fun r2 => (r2.1, r.2 ++ r2.2)))

/-! ### Credit economy: `earn_credits` and `consume_credits` -/

/-- Insert into the accrual routine's address map (`HashMap::insert`,
main.rs:582), modelled as an association list in first-insertion order:
replace the value if the key is present, else append the new entry. -/
def insertKey (m : List (String × Nat)) (k : String) (v : Nat) : List (String × Nat) :=
  if m.any (fun kv => kv.1 = k) then
    m.map (fun kv => if kv.1 = k then (kv.1, v) else kv)
  else m ++ [(k, v)]

/-- The `*c += 1` of `m.get_mut(target)` (main.rs:597-599): bump the entry
with the given key, do nothing when the key is absent. -/
def bumpKey (m : List (String × Nat)) (k : String) : List (String × Nat) :=
  m.map (fun kv => if kv.1 = k then (kv.1, kv.2 + 1) else kv)

/-- The first loop of `earn_credits` (main.rs:577-584): one zero-valued
counter per assigned address of a processor-labeled pod. -/
def buildProcMapAux (m : List (String × Nat)) : List Pod → List (String × Nat)
  | [] => m
  | p :: rest =>
    buildProcMapAux
      (if isProcessor p then
        match get_unit_ip p with
        | some ip => insertKey m ip 0
        | none => m
      else m) rest

/-- The processor-address counter map, built from an empty map. -/
def buildProcMap (pods : List Pod) : List (String × Nat) :=
  buildProcMapAux [] pods

/-- The second loop of `earn_credits` (main.rs:586-601): for each
miner-labeled pod, look up its `TARGET` value and bump the matching
processor counter.  `none` propagates the `containers[0]` out-of-bounds
fault of `minerTargetIp`. -/
def applyMiners (m : List (String × Nat)) : List Pod → Option (List (String × Nat))
  | [] => some m
  | p :: rest =>
    if isMiner p then
      match minerTargetIp p with
      | none => none
      | some none => applyMiners m rest
      | some (some t) => applyMiners (bumpKey m t) rest
    else applyMiners m rest

/-- `earned_credits` (main.rs:574-604): cap each counter at 3 and sum.
(The source sums `HashMap::into_values`, whose order is unspecified; the
sum does not depend on the order.) -/
def earnedCredits (pods : List Pod) : Option Nat :=
  (applyMiners (buildProcMap pods) pods).map
    (fun m => (m.map (fun kv => min kv.2 3)).sum)

/-- One accrual tick (main.rs:605-608):
`credits.saturating_add(earned_credits)`. -/
def earnTick (credits : Nat) (pods : List Pod) : Option Nat :=
  (earnedCredits pods).map (fun e => usizeSatAdd credits e)

/-- One consumption tick (main.rs:614-625):
`credits.saturating_sub(pods.len())` (Nat subtraction is saturating). -/
def consumeTick (credits : Nat) (pods : List Pod) : Nat :=
  credits - pods.length

/-! ### The economy events as integer arithmetic

To state that no unsigned underflow occurs, credits are re-modelled as a
mathematical integer and each of the three mutation sites of the source is
translated with its exact arithmetic discipline; the invariant
`0 ≤ credits` is then a theorem about the guards, not a fact of `Nat`. -/

/-- `usize::MAX` as an integer. -/
def UMAXZ : Int := 2 ^ 64 - 1

/-- `saturating_add` on the integer model. -/
def satAddZ (a b : Int) : Int :=
  min (a + b) UMAXZ

/-- `saturating_sub` on the integer model (saturates at zero). -/
def satSubZ (a b : Int) : Int :=
  max (a - b) 0

/-- The three kinds of credit mutation in the source: an accrual tick over
a snapshot, a consumption tick over a snapshot, and a purchase of a unit
at a given price. -/
inductive EconEvent where
  | accrue (pods : List Pod)
  | consume (pods : List Pod)
  | purchase (price : Nat)

/-- One credit mutation: accrual is `saturating_add` of the earned sum
(main.rs:607, faulting as `earnedCredits` does), consumption is
`saturating_sub` of the pod count (main.rs:620), and a purchase subtracts
the price only under the `has_enough_credit` guard (main.rs:373-395),
otherwise leaves credits unchanged. -/
def econStep (c : Int) : EconEvent → Option Int
  | EconEvent.accrue pods => (earnedCredits pods).map (fun e => satAddZ c (Int.ofNat e))
  | EconEvent.consume pods => some (satSubZ c (Int.ofNat pods.length))
  | EconEvent.purchase price => some (if (price : Int) ≤ c then c - (price : Int) else c)

/-- Run a sequence of interleaved economy events. -/
def econRun (c : Int) : List EconEvent → Option Int
  | [] => some c
  | e :: es => (econStep c e).bind (fun c2 => econRun c2 es)

/-! ### The synchronization loop's command drain (main.rs:138-162)

The creation-command channel is a FIFO queue; each one-second cycle makes a
single non-blocking `try_recv` check and submits the drained command, if
any, to the control-plane. -/

/-- One cycle's channel check: take the head of the queue if non-empty
(`try_recv`), returning the remaining queue and the command submitted this
cycle. -/
def syncCycle (q : List AstroUnitTemplate) : List AstroUnitTemplate × Option AstroUnitTemplate :=
  match q with
  | [] => ([], none)
  | p :: rest => (rest, some p)

/-- Run `n` cycles over a queued burst of creation commands, collecting the
submissions in order. -/
def syncRun (q : List AstroUnitTemplate) : Nat → List AstroUnitTemplate × List AstroUnitTemplate
  | 0 => (q, [])
  | n + 1 =>
    let c := syncCycle q
    let r := syncRun c.1 n
    (r.1, c.2.toList ++ r.2)

/-! ### The rendered workload descriptor -/

/-- Modelled from the spec: the askama template `templates/astro-unit.json`
that `create_unit` renders into a `Pod` is not among the sources.  Per the
spec's serialization contract, the descriptor carries the name
`"<kind>-<random-id>"`, a unit-kind label (read back by `get_unit_type`
under the key `cube-harvest.io/unit-type`), and for miners an
environment-style key `TARGET` set to the typed address string. -/
def renderAstroUnit (t : AstroUnitTemplate) : Pod :=
  { metadata :=
      { name := some t.name
        labels := some [("cube-harvest.io/unit-type", t.unit_type)] }
    spec :=
      some { containers := [{ env := some [{ name := "TARGET", value := some t.target_ip }] }]
             node_name := none }
    status := none }

/-! ### The accrual sum as the spec states it

Two formulas written from the claim's words, to be compared with
`earnedCredits`: the per-workload sum (one `min(k, 3)` term for every
processor-labeled workload with an address) and the per-distinct-address
sum (one term per distinct assigned address). -/

/-- The number of miner-labeled pods whose `TARGET` value equals `a`. -/
def minersTargetingCount (pods : List Pod) (a : String) : Nat :=
  (pods.filter (fun p => isMiner p && minerTargetIp p = some (some a))).length

/-- The claim's literal accrual formula: the sum over all
processor-labeled workloads that have an assigned address of
`min(miners targeting that address, 3)`. -/
def perWorkloadAccrual (pods : List Pod) : Nat :=
  (pods.filterMap (fun p =>
    if isProcessor p then
      (get_unit_ip p).map (fun ip => min (minersTargetingCount pods ip) 3)
    else none)).sum

/-- The assigned addresses of processor-labeled pods, in snapshot order. -/
def procAddrs (pods : List Pod) : List String :=
  pods.filterMap (fun p => if isProcessor p then get_unit_ip p else none)

/-- The accrual formula per distinct processor address: the sum over the
distinct assigned addresses of `min(miners targeting that address, 3)`. -/
def perAddressAccrual (pods : List Pod) : Nat :=
  (((procAddrs pods).dedup).map (fun a => min (minersTargetingCount pods a) 3)).sum

/-! ### Helper lemmas -/

theorem clampNat_zero_le (v hi : Nat) : clampNat v 0 hi ≤ hi := by
  unfold clampNat
  split
  · omega
  · split <;> omega

theorem clampNat_zero_id (v hi : Nat) (h : v ≤ hi) : clampNat v 0 hi = v := by
  unfold clampNat
  split
  · omega
  · split <;> omega

theorem frameUpdate_index_lt (pods : List Pod) (N : Nat) (gs : GState) (inp : FrameInput)
    (hN : 0 < N) (gs' : GState) (cmds : List AstroUnitTemplate)
    (h : frameUpdate pods N gs inp = some (gs', cmds)) :
    gs'.selected_node_index < N := by
  unfold frameUpdate at h
  have hsub : usizeSub N 1 = some (N - 1) := by
    unfold usizeSub
    split
    · rfl
    · omega
  rw [hsub] at h
  simp only [Option.some.injEq, Prod.mk.injEq] at h
  rcases h with ⟨h1, h2⟩
  have hle := clampNat_zero_le
    ((navUpdate { gs with miner_price := countKind pods "miner",
                          processor_price := countKind pods "processor" } inp).1).selected_node_index
    (N - 1)
  rw [← h1]
  dsimp only
  omega

theorem frameRunFixed_index_lt (pods : List Pod) (N : Nat) (hN : 0 < N)
    (frames : List FrameInput) :
    ∀ gs gs' cmds, frameRunFixed pods N gs frames = some (gs', cmds) →
      frames = [] ∨ gs'.selected_node_index < N := by
  induction frames with
  | nil => exact fun gs gs' cmds h => Or.inl rfl
  | cons inp rest ih =>
    intro gs gs' cmds h
    right
    rw [frameRunFixed] at h
    rcases Option.bind_eq_some.mp h with ⟨r, hf, h2⟩
    rcases Option.map_eq_some'.mp h2 with ⟨r2, hrun2, heq⟩
    have hgs' : gs' = r2.1 := by
      have := congrArg Prod.fst heq
      simpa using this.symm
    rcases ih r.1 r2.1 r2.2 (by rw [hrun2]) with hnil | hlt
    · subst hnil
      have hr2 : r2 = (r.1, []) := by
        rw [frameRunFixed] at hrun2
        exact (Option.some_inj.mp hrun2).symm
      rw [hgs', hr2]
      exact frameUpdate_index_lt pods N gs inp hN r.1 r.2 (by rw [hf])
    · rw [hgs']
      exact hlt

/-- Claim C1: for every snapshot with `N > 0` nodes, the selected node
index stored at the end of any frame — after any sequence of frames
carrying right-arrow (saturating increment) and left-arrow (saturating
decrement) inputs — lies in `[0, N-1]`, because it is reclamped every
frame with `clamp(idx, 0, nodes_len - 1)` before being stored back. -/
theorem C1_selected_index_in_range (pods : List Pod) (N : Nat) (hN : 0 < N)
    (frames : List FrameInput) (hne : frames ≠ []) (gs gs' : GState)
    (cmds : List AstroUnitTemplate)
    (h : frameRunFixed pods N gs frames = some (gs', cmds)) :
    0 ≤ gs'.selected_node_index ∧ gs'.selected_node_index ≤ N - 1 := by
  rcases frameRunFixed_index_lt pods N hN frames gs gs' cmds h with hnil | hlt
  · exact absurd hnil hne
  · omega

/-- Witness for C1: a concrete two-frame run (right arrow in the first
frame) over a one-node snapshot ends with the index at 0. -/
theorem C1_selected_index_in_range_witness :
    0 < 1 ∧ ([idleInput, idleInput] : List FrameInput) ≠ [] ∧
    ∃ gs' cmds, frameRunFixed [] 1 initGState [idleInput, idleInput] = some (gs', cmds) ∧
      0 ≤ gs'.selected_node_index ∧ gs'.selected_node_index ≤ 1 - 1 := by
  refine ⟨Nat.one_pos, by simp, ?_⟩
  cases hrun : frameRunFixed [] 1 initGState [idleInput, idleInput] with
  | none => exact absurd hrun (by decide)
  | some r =>
    exact ⟨r.1, r.2, rfl,
      C1_selected_index_in_range [] 1 Nat.one_pos [idleInput, idleInput] (by simp)
        initGState r.1 r.2 hrun⟩

/-- Claim C2: when the snapshot's node list is empty, the per-frame
reclamping computes `node_count - 1` on an unsigned zero, so the frame
faults: the checked subtraction underflows (`frameUpdate` returns the
fault `none`), while under wrapping semantics the bound becomes
`usize::MAX` and the clamp passes any in-range index through unclamped
instead of following a defined clamp-to-0 policy. -/
theorem C2_empty_nodes_underflow (pods : List Pod) (gs : GState) (inp : FrameInput)
    (idx : Nat) (hidx : idx ≤ USIZE_MAX) :
    frameUpdate pods 0 gs inp = none ∧
    usizeSub 0 1 = none ∧
    usizeWrapSub 0 1 = USIZE_MAX ∧
    clampNat idx 0 (usizeWrapSub 0 1) = idx := by
  refine ⟨?_, by decide, by decide, ?_⟩
  · unfold frameUpdate
    rfl
  · have hwrap : usizeWrapSub 0 1 = USIZE_MAX := by decide
    rw [hwrap]
    exact clampNat_zero_id idx USIZE_MAX hidx

/-- Witness for C2 at a concrete out-of-range index. -/
theorem C2_empty_nodes_underflow_witness :
    (5 : Nat) ≤ USIZE_MAX ∧
    (frameUpdate [] 0 initGState idleInput = none ∧
      usizeSub 0 1 = none ∧
      usizeWrapSub 0 1 = USIZE_MAX ∧
      clampNat 5 0 (usizeWrapSub 0 1) = 5) :=
  ⟨by decide, C2_empty_nodes_underflow [] initGState idleInput 5 (by decide)⟩

/-- Claim C9: the synchronization loop's non-blocking check drains at most
one queued creation command per cycle; over `n` cycles a queued burst is
submitted FIFO — the first `min(n, |queue|)` commands in queue order — and
the rest stay queued, so nothing is dropped. -/
theorem C9_sync_drain_fifo (q : List AstroUnitTemplate) (n : Nat) :
    (syncRun q n).2 = q.take n ∧
    (syncRun q n).1 = q.drop n ∧
    (syncCycle q).2.toList.length ≤ 1 := by
  refine ⟨?_, ?_, ?_⟩
  · induction n generalizing q with
    | zero => simp [syncRun]
    | succ k ih =>
      cases q with
      | nil => simp [syncRun, syncCycle, ih]
      | cons p rest => simp [syncRun, syncCycle, ih]
  · induction n generalizing q with
    | zero => simp [syncRun]
    | succ k ih =>
      cases q with
      | nil => simp [syncRun, syncCycle, ih]
      | cons p rest => simp [syncRun, syncCycle, ih]
  · cases q <;> simp [syncCycle]

/-- Claim C3: credits never go negative.  On the integer model of `usize`
credits, any interleaving of accrual ticks (`saturating_add`), consumption
ticks (`saturating_sub`), and purchases (subtraction performed only under
the `has_enough_credit` guard `credits >= price`) keeps credits `≥ 0`:
no unsigned underflow occurs. -/
theorem C3_credits_nonneg (es : List EconEvent) (c0 : Int) (h0 : 0 ≤ c0)
    (c : Int) (h : econRun c0 es = some c) : 0 ≤ c := by
  induction es generalizing c0 with
  | nil =>
    rw [econRun] at h
    rcases Option.some_inj.mp h with rfl
    exact h0
  | cons e rest ih =>
    rw [econRun] at h
    rcases Option.bind_eq_some.mp h with ⟨c2, hstep, hrest⟩
    refine ih c2 ?_ hrest
    cases e with
    | accrue pods =>
      rw [econStep] at hstep
      rcases Option.map_eq_some'.mp hstep with ⟨e2, _, heq⟩
      rw [← heq]
      unfold satAddZ UMAXZ
      have : (0 : Int) ≤ Int.ofNat e2 := Int.ofNat_nonneg e2
      omega
    | consume pods =>
      rw [econStep] at hstep
      rcases Option.some_inj.mp hstep with rfl
      unfold satSubZ
      omega
    | purchase price =>
      rw [econStep] at hstep
      rcases Option.some_inj.mp hstep with rfl
      split <;> omega

/-- Witness for C3: from 0 credits, one accrual tick over an empty
snapshot, one consumption tick, and one purchase of price 0 end at
non-negative credits. -/
theorem C3_credits_nonneg_witness :
    (0 : Int) ≤ 0 ∧
    ∃ c, econRun 0 [EconEvent.accrue [], EconEvent.consume [], EconEvent.purchase 0] = some c ∧
      0 ≤ c := by
  refine ⟨le_refl 0, ?_⟩
  cases hrun : econRun 0 [EconEvent.accrue [], EconEvent.consume [], EconEvent.purchase 0] with
  | none => exact absurd hrun (by decide)
  | some c =>
    exact ⟨c, rfl,
      C3_credits_nonneg [EconEvent.accrue [], EconEvent.consume [], EconEvent.purchase 0]
        0 (le_refl 0) c hrun⟩

/-- Claim C8: a creation command built from `(kind = Miner, typed address
"10.0.0.9")` renders to a workload descriptor whose unit-kind label reads
back as "miner" (via `get_unit_type`), whose `TARGET` value reads back as
"10.0.0.9" exactly (via the accrual routine's lookup), and whose name is
`"miner-<random-id>"`; a Processor command carries the label value
"processor".  (The descriptor rendering is modelled from the spec, the
askama template not being among the sources.) -/
theorem C8_descriptor_roundtrip (gs : GState) (unit_id : Nat)
    (hbuf : gs.create_text_buf = "10.0.0.9") :
    get_unit_type (renderAstroUnit (create_unit gs CreateTarget.Miner unit_id)) = some "miner" ∧
    minerTargetIp (renderAstroUnit (create_unit gs CreateTarget.Miner unit_id)) =
      some (some "10.0.0.9") ∧
    (renderAstroUnit (create_unit gs CreateTarget.Miner unit_id)).metadata.name =
      some ("miner-" ++ toString unit_id) ∧
    get_unit_type (renderAstroUnit (create_unit gs CreateTarget.Processor unit_id)) =
      some "processor" := by
  refine ⟨?_, ?_, ?_, ?_⟩ <;>
    simp [renderAstroUnit, create_unit, get_unit_type, get_unit_ip, minerTargetIp,
      lookupLabel, unitTypeStr, hbuf, List.find?]

/-- Witness for C8 at a concrete state and id. -/
theorem C8_descriptor_roundtrip_witness :
    ({ initGState with create_text_buf := "10.0.0.9" } : GState).create_text_buf = "10.0.0.9" ∧
    (get_unit_type (renderAstroUnit (create_unit
        { initGState with create_text_buf := "10.0.0.9" } CreateTarget.Miner 7)) = some "miner" ∧
      minerTargetIp (renderAstroUnit (create_unit
        { initGState with create_text_buf := "10.0.0.9" } CreateTarget.Miner 7)) =
        some (some "10.0.0.9") ∧
      (renderAstroUnit (create_unit
        { initGState with create_text_buf := "10.0.0.9" } CreateTarget.Miner 7)).metadata.name =
        some ("miner-" ++ toString 7) ∧
      get_unit_type (renderAstroUnit (create_unit
        { initGState with create_text_buf := "10.0.0.9" } CreateTarget.Processor 7)) =
        some "processor") :=
  ⟨rfl, C8_descriptor_roundtrip { initGState with create_text_buf := "10.0.0.9" } 7 rfl⟩

/-- The price `draw` compares against and deducts (main.rs:373-380,
388-395), read off the current `GameState`. -/
def priceOf (gs : GState) : CreateTarget → Nat
  | CreateTarget.Miner => gs.miner_price
  | CreateTarget.Processor => gs.processor_price

theorem navUpdate_confirm_ok (gs : GState) (inp : FrameInput) (t : CreateTarget)
    (hmode : gs.navigation_mode = NavigationMode.Create)
    (htgt : gs.create_target = some t)
    (hconfirm : inp.enter = true ∨ t = CreateTarget.Processor)
    (hcred : priceOf gs t ≤ gs.credits) :
    navUpdate gs inp =
      ({ gs with credits := gs.credits - priceOf gs t
                 navigation_mode := NavigationMode.Cluster }, [create_unit gs t inp.randId]) := by
  have hcond : (inp.enter || decide (t = CreateTarget.Processor)) = true := by
    rcases hconfirm with h | h <;> simp [h]
  unfold navUpdate
  rw [hmode, htgt]
  cases t with
  | Miner =>
    simp only [priceOf] at hcred
    replace hcond : inp.enter = true := by simpa using hcond
    simp [hcond, hcred, priceOf]
  | Processor =>
    simp only [priceOf] at hcred
    simp [hcred, priceOf]

theorem navUpdate_confirm_insufficient (gs : GState) (inp : FrameInput) (t : CreateTarget)
    (hmode : gs.navigation_mode = NavigationMode.Create)
    (htgt : gs.create_target = some t)
    (hconfirm : inp.enter = true ∨ t = CreateTarget.Processor)
    (hcred : gs.credits < priceOf gs t) :
    navUpdate gs inp = ({ gs with navigation_mode := NavigationMode.Cluster }, []) := by
  have hcond : (inp.enter || decide (t = CreateTarget.Processor)) = true := by
    rcases hconfirm with h | h <;> simp [h]
  unfold navUpdate
  rw [hmode, htgt]
  cases t with
  | Miner =>
    simp only [priceOf] at hcred
    replace hcond : inp.enter = true := by simpa using hcond
    simp [hcond, Nat.not_le.mpr hcred]
  | Processor =>
    simp only [priceOf] at hcred
    simp [Nat.not_le.mpr hcred]

/-- Claim C5: confirming a creation in Create mode with a chosen target
when `credits ≥ price` (the price recomputed this frame from the
snapshot) deducts exactly that price, emits exactly one creation command
on the channel, and transitions the navigation mode to Cluster. -/
theorem C5_create_confirm_deducts (pods : List Pod) (N : Nat) (gs : GState) (inp : FrameInput)
    (t : CreateTarget) (hN : 0 < N)
    (hmode : gs.navigation_mode = NavigationMode.Create)
    (htgt : gs.create_target = some t)
    (hconfirm : inp.enter = true ∨ t = CreateTarget.Processor)
    (hcred : targetPrice pods t ≤ gs.credits) :
    ∃ gs', frameUpdate pods N gs inp = some (gs', [create_unit gs t inp.randId]) ∧
      gs'.credits + targetPrice pods t = gs.credits ∧
      gs'.navigation_mode = NavigationMode.Cluster := by
  have hsub : usizeSub N 1 = some (N - 1) := by
    unfold usizeSub
    split
    · rfl
    · omega
  have hprice : priceOf { gs with miner_price := countKind pods "miner",
                                  processor_price := countKind pods "processor" } t
      = targetPrice pods t := by
    cases t <;> rfl
  have hnav := navUpdate_confirm_ok
    { gs with miner_price := countKind pods "miner",
              processor_price := countKind pods "processor" }
    inp t hmode htgt hconfirm (by rw [hprice]; exact hcred)
  unfold frameUpdate
  dsimp only
  rw [hsub, hnav]
  dsimp only
  refine ⟨_, rfl, ?_, rfl⟩
  dsimp only
  rw [hprice]
  exact Nat.sub_add_cancel hcred

/-- Witness for C5: in Create mode with target Processor, 0 credits and a
price of 0 (empty snapshot), the auto-confirm emits one command and
returns to Cluster mode. -/
theorem C5_create_confirm_deducts_witness :
    0 < 1 ∧
    ({ initGState with navigation_mode := NavigationMode.Create
                       create_target := some CreateTarget.Processor } : GState).navigation_mode
      = NavigationMode.Create ∧
    ∃ gs', frameUpdate [] 1
        { initGState with navigation_mode := NavigationMode.Create
                          create_target := some CreateTarget.Processor } idleInput
      = some (gs', [create_unit
          { initGState with navigation_mode := NavigationMode.Create
                            create_target := some CreateTarget.Processor }
          CreateTarget.Processor idleInput.randId]) ∧
      gs'.credits + targetPrice [] CreateTarget.Processor =
        ({ initGState with navigation_mode := NavigationMode.Create
                           create_target := some CreateTarget.Processor } : GState).credits ∧
      gs'.navigation_mode = NavigationMode.Cluster :=
  ⟨Nat.one_pos, rfl,
    C5_create_confirm_deducts [] 1
      { initGState with navigation_mode := NavigationMode.Create
                        create_target := some CreateTarget.Processor }
      idleInput CreateTarget.Processor Nat.one_pos rfl rfl (Or.inr rfl) (Nat.zero_le _)⟩

/-- Claim C6: confirming a creation in Create mode with a chosen target
when `credits < price` leaves credits unchanged, emits no creation
command, and still transitions the navigation mode to Cluster — a silent
recoverable no-op. -/
theorem C6_create_confirm_insufficient (pods : List Pod) (N : Nat) (gs : GState)
    (inp : FrameInput) (t : CreateTarget) (hN : 0 < N)
    (hmode : gs.navigation_mode = NavigationMode.Create)
    (htgt : gs.create_target = some t)
    (hconfirm : inp.enter = true ∨ t = CreateTarget.Processor)
    (hcred : gs.credits < targetPrice pods t) :
    ∃ gs', frameUpdate pods N gs inp = some (gs', []) ∧
      gs'.credits = gs.credits ∧
      gs'.navigation_mode = NavigationMode.Cluster := by
  have hsub : usizeSub N 1 = some (N - 1) := by
    unfold usizeSub
    split
    · rfl
    · omega
  have hprice : priceOf { gs with miner_price := countKind pods "miner",
                                  processor_price := countKind pods "processor" } t
      = targetPrice pods t := by
    cases t <;> rfl
  have hnav := navUpdate_confirm_insufficient
    { gs with miner_price := countKind pods "miner",
              processor_price := countKind pods "processor" }
    inp t hmode htgt hconfirm (by rw [hprice]; exact hcred)
  unfold frameUpdate
  dsimp only
  rw [hsub, hnav]
  dsimp only
  exact ⟨_, rfl, rfl, rfl⟩

/-- Witness for C6: in Create mode with target Processor, 0 credits and a
snapshot holding one processor pod (price 1), the auto-confirm is a no-op
that still returns to Cluster mode. -/
theorem C6_create_confirm_insufficient_witness :
    0 < 1 ∧
    (0 : Nat) < targetPrice
      [{ metadata := { name := none,
                       labels := some [("cube-harvest.io/unit-type", "processor")] },
         spec := none, status := none }] CreateTarget.Processor ∧
    ∃ gs', frameUpdate
        [{ metadata := { name := none,
                         labels := some [("cube-harvest.io/unit-type", "processor")] },
           spec := none, status := none }] 1
        { initGState with navigation_mode := NavigationMode.Create
                          create_target := some CreateTarget.Processor } idleInput
      = some (gs', []) ∧
      gs'.credits =
        ({ initGState with navigation_mode := NavigationMode.Create
                           create_target := some CreateTarget.Processor } : GState).credits ∧
      gs'.navigation_mode = NavigationMode.Cluster :=
  ⟨Nat.one_pos, by decide,
    C6_create_confirm_insufficient
      [{ metadata := { name := none,
                       labels := some [("cube-harvest.io/unit-type", "processor")] },
         spec := none, status := none }] 1
      { initGState with navigation_mode := NavigationMode.Create
                        create_target := some CreateTarget.Processor }
      idleInput CreateTarget.Processor Nat.one_pos rfl rfl (Or.inr rfl) (by decide)⟩

theorem navUpdate_cluster_keyC (gs : GState) (inp : FrameInput)
    (hmode : gs.navigation_mode = NavigationMode.Cluster) (hc : inp.keyC = true) :
    ((navUpdate gs inp).1).navigation_mode = NavigationMode.Create ∧
    ((navUpdate gs inp).1).create_target = none := by
  unfold navUpdate
  rw [hmode]
  dsimp only
  simp [hc]

theorem navUpdate_create_some_preserves_target (gs : GState) (inp : FrameInput)
    (t : CreateTarget)
    (hmode : gs.navigation_mode = NavigationMode.Create)
    (htgt : gs.create_target = some t) :
    ((navUpdate gs inp).1).create_target = some t := by
  unfold navUpdate
  rw [hmode, htgt]
  dsimp only
  split <;> (try split) <;> (try split) <;> (try split) <;> (try split) <;>
    first
    | rfl
    | exact htgt

/-- Counterexample to claim C7 as stated: from the initial state, pressing
the create key (enter Create mode), then the processor key (choose the
target, which auto-confirms on the next frame) reaches a state whose
navigation mode is Cluster while `create_target` is still
`some Processor` — the transitions leaving Create mode do not
re-establish `create_target = none`. -/
theorem C7_counterexample :
    (frameRunFixed [] 1 initGState
        [{ idleInput with keyC := true }, { idleInput with keyP := true }, idleInput]).map
        (fun r => (r.1.navigation_mode, r.1.create_target))
      = some (NavigationMode.Cluster, some CreateTarget.Processor) := by
  rfl

/-- Claim C7, amended: entering Create mode clears `create_target`, but a
frame processed in Create mode with a chosen target leaves `create_target`
untouched — the transitions leaving Create mode (confirm,
insufficient-credit exit, escape) preserve it rather than resetting it to
`none`, so `create_target` may remain `Some` while the mode is Cluster. -/
theorem C7_amended_create_target_policy (pods : List Pod) (N : Nat) (gs : GState)
    (inp : FrameInput) (t : CreateTarget) (gs' : GState) (cmds : List AstroUnitTemplate)
    (h : frameUpdate pods N gs inp = some (gs', cmds)) :
    (gs.navigation_mode = NavigationMode.Cluster → inp.keyC = true →
      gs'.navigation_mode = NavigationMode.Create ∧ gs'.create_target = none) ∧
    (gs.navigation_mode = NavigationMode.Create → gs.create_target = some t →
      gs'.create_target = some t) := by
  unfold frameUpdate at h
  dsimp only at h
  cases hsub : usizeSub N 1 with
  | none => rw [hsub] at h; exact absurd h (by simp)
  | some ub =>
    rw [hsub] at h
    simp only [Option.some.injEq, Prod.mk.injEq] at h
    rcases h with ⟨h1, h2⟩
    constructor
    · intro hmode hc
      have := navUpdate_cluster_keyC
        { gs with miner_price := countKind pods "miner",
                  processor_price := countKind pods "processor" } inp hmode hc
      rw [← h1]
      exact this
    · intro hmode htgt
      have := navUpdate_create_some_preserves_target
        { gs with miner_price := countKind pods "miner",
                  processor_price := countKind pods "processor" } inp t hmode htgt
      rw [← h1]
      exact this

/-- Witness for C7's amended statement: a concrete frame in Create mode
with target Miner and the escape key pressed ends in Cluster mode with
`create_target` still `some Miner`. -/
theorem C7_amended_create_target_policy_witness :
    ∃ r, frameUpdate [] 1
        { initGState with navigation_mode := NavigationMode.Create
                          create_target := some CreateTarget.Miner }
        { idleInput with escape := true } = some r ∧
      r.1.create_target = some CreateTarget.Miner := by
  cases hrun : frameUpdate [] 1
      { initGState with navigation_mode := NavigationMode.Create
                        create_target := some CreateTarget.Miner }
      { idleInput with escape := true } with
  | none => exact absurd hrun (by decide)
  | some r =>
    refine ⟨r, rfl, ?_⟩
    exact (C7_amended_create_target_policy [] 1
      { initGState with navigation_mode := NavigationMode.Create
                        create_target := some CreateTarget.Miner }
      { idleInput with escape := true } CreateTarget.Miner r.1 r.2 hrun).2 rfl rfl

/-! ### Lemmas about the accrual routine -/

theorem minerTargetIp_eq_none_iff (p : Pod) :
    minerTargetIp p = none ↔ ∃ s, p.spec = some s ∧ s.containers = [] := by
  unfold minerTargetIp
  cases hs : p.spec with
  | none => simp
  | some s =>
    cases hc : s.containers with
    | nil => simp [hc]
    | cons c cs => simp [hc]

theorem applyMiners_fault (pods : List Pod) :
    ∀ m p, p ∈ pods → isMiner p = true → minerTargetIp p = none →
      applyMiners m pods = none := by
  induction pods with
  | nil => intro m p hp; exact absurd hp (List.not_mem_nil p)
  | cons q rest ih =>
    intro m p hp hm ht
    rw [applyMiners]
    rcases List.mem_cons.mp hp with rfl | hp2
    · simp [hm, ht]
    · split
      · cases hq : minerTargetIp q with
        | none => rfl
        | some o =>
          cases o with
          | none => exact ih m p hp2 hm ht
          | some tgt => exact ih (bumpKey m tgt) p hp2 hm ht
      · exact ih m p hp2 hm ht

theorem applyMiners_eq (pods : List Pod) :
    ∀ m, (∀ p ∈ pods, isMiner p = true → (minerTargetIp p).isSome = true) →
      applyMiners m pods =
        some (m.map (fun kv => (kv.1, kv.2 + minersTargetingCount pods kv.1))) := by
  induction pods with
  | nil =>
    intro m h
    simp [applyMiners, minersTargetingCount]
  | cons p rest ih =>
    intro m h
    have hrest : ∀ q ∈ rest, isMiner q = true → (minerTargetIp q).isSome = true :=
      fun q hq => h q (List.mem_cons_of_mem p hq)
    rw [applyMiners]
    cases hm : isMiner p with
    | false =>
      simp only [Bool.false_eq_true, if_false]
      rw [ih m hrest]
      congr 1
      apply List.map_congr_left
      intro kv _
      have : minersTargetingCount (p :: rest) kv.1 = minersTargetingCount rest kv.1 := by
        unfold minersTargetingCount
        rw [List.filter_cons]
        simp [hm]
      rw [this]
    | true =>
      simp only [if_true]
      cases ht : minerTargetIp p with
      | none =>
        have := h p (List.mem_cons_self p rest) hm
        rw [ht] at this
        exact absurd this (by simp)
      | some o =>
        cases o with
        | none =>
          dsimp only
          rw [ih m hrest]
          congr 1
          apply List.map_congr_left
          intro kv _
          have : minersTargetingCount (p :: rest) kv.1 = minersTargetingCount rest kv.1 := by
            unfold minersTargetingCount
            rw [List.filter_cons]
            simp [ht]
          rw [this]
        | some tgt =>
          dsimp only
          rw [ih (bumpKey m tgt) hrest]
          congr 1
          rw [bumpKey, List.map_map]
          apply List.map_congr_left
          intro kv _
          by_cases hk : kv.1 = tgt
          · subst hk
            have hcnt : minersTargetingCount (p :: rest) kv.1 =
                minersTargetingCount rest kv.1 + 1 := by
              unfold minersTargetingCount
              rw [List.filter_cons]
              simp [hm, ht]
            simp [Function.comp, hcnt, Prod.ext_iff]
            try omega
          · have hcnt : minersTargetingCount (p :: rest) kv.1 =
                minersTargetingCount rest kv.1 := by
              unfold minersTargetingCount
              rw [List.filter_cons]
              simp [hm, ht, Ne.symm hk]
            simp [Function.comp, hk, hcnt]

theorem earnedCredits_isSome_of_no_fault (pods : List Pod)
    (h : ∀ p ∈ pods, isMiner p = true → (minerTargetIp p).isSome = true) :
    (earnedCredits pods).isSome = true := by
  rw [earnedCredits, applyMiners_eq pods (buildProcMap pods) h]
  rfl

/-- Claim C10: the accrual routine unconditionally indexes `containers[0]`
of every miner-labeled workload that has a spec; accrual is total when
every miner-labeled workload's container list is non-empty, and a single
miner workload with an empty container list makes the accrual tick fault
(`none`, the out-of-bounds panic). -/
theorem C10_accrual_containers_total (pods : List Pod) :
    ((∀ p ∈ pods, isMiner p = true → ∀ s, p.spec = some s → s.containers ≠ []) →
      (earnedCredits pods).isSome = true) ∧
    (∀ p ∈ pods, isMiner p = true → ∀ s, p.spec = some s → s.containers = [] →
      earnedCredits pods = none) := by
  constructor
  · intro h
    apply earnedCredits_isSome_of_no_fault
    intro p hp hm
    cases ht : minerTargetIp p with
    | some o => rfl
    | none =>
      rcases (minerTargetIp_eq_none_iff p).mp ht with ⟨s, hs, hc⟩
      exact absurd hc (h p hp hm s hs)
  · intro p hp hm s hs hc
    have ht : minerTargetIp p = none :=
      (minerTargetIp_eq_none_iff p).mpr ⟨s, hs, hc⟩
    rw [earnedCredits, applyMiners_fault pods (buildProcMap pods) p hp hm ht]
    rfl

/-- A well-formed miner pod targeting "10.0.0.1" (one container). -/
def okMinerPod : Pod :=
  renderAstroUnit { name := "miner-1", target_ip := "10.0.0.1", unit_type := "miner" }

/-- A miner-labeled pod whose spec carries an empty container list. -/
def badMinerPod : Pod :=
  { metadata := { name := some "miner-2",
                  labels := some [("cube-harvest.io/unit-type", "miner")] }
    spec := some { containers := [], node_name := none }
    status := none }

/-- Witness for C10: over `[okMinerPod]` the accrual tick is defined;
over `[badMinerPod]` it faults. -/
theorem C10_accrual_containers_total_witness :
    (earnedCredits [okMinerPod]).isSome = true ∧ earnedCredits [badMinerPod] = none :=
  ⟨(C10_accrual_containers_total [okMinerPod]).1 (by decide),
    (C10_accrual_containers_total [badMinerPod]).2 badMinerPod (by decide) (by decide)
      { containers := [], node_name := none } (by decide) rfl⟩

theorem insertKey_fst_mem (m : List (String × Nat)) (k : String) (v : Nat)
    (h : m.any (fun kv => kv.1 = k) = true) :
    (insertKey m k v).map Prod.fst = m.map Prod.fst := by
  unfold insertKey
  rw [if_pos h, List.map_map]
  apply List.map_congr_left
  intro kv _
  by_cases hk : kv.1 = k <;> simp [Function.comp, hk]

theorem insertKey_fst_not_mem (m : List (String × Nat)) (k : String) (v : Nat)
    (h : m.any (fun kv => kv.1 = k) = false) :
    (insertKey m k v).map Prod.fst = m.map Prod.fst ++ [k] := by
  unfold insertKey
  rw [if_neg (by simp [h]), List.map_append]
  rfl

theorem mem_insertKey_fst (m : List (String × Nat)) (k : String) (v : Nat) (a : String) :
    a ∈ (insertKey m k v).map Prod.fst ↔ a ∈ m.map Prod.fst ∨ a = k := by
  cases h : m.any (fun kv => kv.1 = k) with
  | true =>
    rw [insertKey_fst_mem m k v h]
    constructor
    · exact Or.inl
    · rintro (h2 | rfl)
      · exact h2
      · rcases List.any_eq_true.mp h with ⟨kv, hkv, hh⟩
        exact List.mem_map.mpr ⟨kv, hkv, of_decide_eq_true hh⟩
  | false =>
    rw [insertKey_fst_not_mem m k v h]
    simp

theorem insertKey_fst_nodup (m : List (String × Nat)) (k : String) (v : Nat)
    (h : (m.map Prod.fst).Nodup) :
    ((insertKey m k v).map Prod.fst).Nodup := by
  cases hm : m.any (fun kv => kv.1 = k) with
  | true => rw [insertKey_fst_mem m k v hm]; exact h
  | false =>
    rw [insertKey_fst_not_mem m k v hm]
    have hk : k ∉ m.map Prod.fst := by
      intro hmem
      rcases List.mem_map.mp hmem with ⟨kv, hkv, hEq⟩
      have : m.any (fun kv => kv.1 = k) = true :=
        List.any_eq_true.mpr ⟨kv, hkv, decide_eq_true hEq⟩
      rw [hm] at this
      cases this
    simp [List.nodup_append, h, hk]

theorem insertKey_vals (m : List (String × Nat)) (k : String)
    (h : ∀ kv ∈ m, kv.2 = 0) :
    ∀ kv ∈ insertKey m k 0, kv.2 = 0 := by
  intro kv hkv
  unfold insertKey at hkv
  split at hkv
  · rcases List.mem_map.mp hkv with ⟨kv0, hkv0, hEq⟩
    by_cases hk : kv0.1 = k
    · rw [if_pos hk] at hEq
      rw [← hEq]
    · rw [if_neg hk] at hEq
      rw [← hEq]
      exact h kv0 hkv0
  · rcases List.mem_append.mp hkv with h2 | h2
    · exact h kv h2
    · rcases List.mem_singleton.mp h2 with rfl
      rfl

theorem buildProcMapAux_vals (pods : List Pod) :
    ∀ m, (∀ kv ∈ m, kv.2 = 0) → ∀ kv ∈ buildProcMapAux m pods, kv.2 = 0 := by
  induction pods with
  | nil => intro m h; exact h
  | cons p rest ih =>
    intro m h
    rw [buildProcMapAux]
    cases hp : isProcessor p with
    | false =>
      simp only [Bool.false_eq_true, if_false]
      exact ih m h
    | true =>
      simp only [if_true]
      cases hip : get_unit_ip p with
      | none => exact ih m h
      | some ip => exact ih (insertKey m ip 0) (insertKey_vals m ip h)

theorem buildProcMapAux_fst_nodup (pods : List Pod) :
    ∀ m, (m.map Prod.fst).Nodup → ((buildProcMapAux m pods).map Prod.fst).Nodup := by
  induction pods with
  | nil => intro m h; exact h
  | cons p rest ih =>
    intro m h
    rw [buildProcMapAux]
    cases hp : isProcessor p with
    | false =>
      simp only [Bool.false_eq_true, if_false]
      exact ih m h
    | true =>
      simp only [if_true]
      cases hip : get_unit_ip p with
      | none => exact ih m h
      | some ip => exact ih (insertKey m ip 0) (insertKey_fst_nodup m ip 0 h)

theorem mem_buildProcMapAux_fst (pods : List Pod) :
    ∀ m a, a ∈ (buildProcMapAux m pods).map Prod.fst ↔
      a ∈ m.map Prod.fst ∨ a ∈ procAddrs pods := by
  induction pods with
  | nil =>
    intro m a
    simp [buildProcMapAux, procAddrs]
  | cons p rest ih =>
    intro m a
    rw [buildProcMapAux]
    have hpa : procAddrs (p :: rest) =
        (if isProcessor p then get_unit_ip p else none).toList ++ procAddrs rest := by
      rw [procAddrs, List.filterMap_cons]
      cases hp : isProcessor p with
      | false => simp [procAddrs]
      | true =>
        cases hip : get_unit_ip p with
        | none => simp [procAddrs]
        | some ip => simp [procAddrs]
    cases hp : isProcessor p with
    | false =>
      simp only [Bool.false_eq_true, if_false]
      rw [ih m a, hpa]
      simp [hp]
    | true =>
      simp only [if_true]
      cases hip : get_unit_ip p with
      | none =>
        rw [ih m a, hpa]
        simp [hp, hip]
      | some ip =>
        rw [ih (insertKey m ip 0) a, hpa, mem_insertKey_fst m ip 0 a]
        simp [hp, hip]
        tauto

theorem earnedCredits_eq_perAddress (pods : List Pod)
    (h : ∀ p ∈ pods, isMiner p = true → (minerTargetIp p).isSome = true) :
    earnedCredits pods = some (perAddressAccrual pods) := by
  rw [earnedCredits, applyMiners_eq pods (buildProcMap pods) h]
  simp only [Option.map_some']
  congr 1
  rw [List.map_map]
  have hvals : ∀ kv ∈ buildProcMap pods, kv.2 = 0 :=
    buildProcMapAux_vals pods [] (by simp)
  have hstep : (buildProcMap pods).map
        ((fun kv => min kv.2 3) ∘ (fun kv : String × Nat =>
          (kv.1, kv.2 + minersTargetingCount pods kv.1)))
      = ((buildProcMap pods).map Prod.fst).map
          (fun a => min (minersTargetingCount pods a) 3) := by
    rw [List.map_map]
    apply List.map_congr_left
    intro kv hkv
    have h0 := hvals kv hkv
    simp [Function.comp, h0]
  rw [hstep]
  have hnd1 : ((buildProcMap pods).map Prod.fst).Nodup :=
    buildProcMapAux_fst_nodup pods [] (by simp)
  have hnd2 : ((procAddrs pods).dedup).Nodup := List.nodup_dedup _
  have hmemiff : ∀ a, a ∈ (buildProcMap pods).map Prod.fst ↔ a ∈ (procAddrs pods).dedup := by
    intro a
    rw [List.mem_dedup]
    have := mem_buildProcMapAux_fst pods [] a
    simpa [buildProcMap] using this
  have hperm : ((buildProcMap pods).map Prod.fst).Perm ((procAddrs pods).dedup) :=
    (List.perm_ext_iff_of_nodup hnd1 hnd2).mpr hmemiff
  rw [perAddressAccrual]
  exact (hperm.map (fun a => min (minersTargetingCount pods a) 3)).sum_eq

/-- A processor-labeled pod with the given assigned address. -/
def procPodAt (nm ip : String) : Pod :=
  { metadata := { name := some nm,
                  labels := some [("cube-harvest.io/unit-type", "processor")] }
    spec := none
    status := some { pod_ip := some ip } }

/-- A miner-labeled pod (one container) whose `TARGET` value is `tgt`. -/
def minerPodAt (nm tgt : String) : Pod :=
  renderAstroUnit { name := nm, target_ip := tgt, unit_type := "miner" }

/-- Two processors sharing the address "10.0.0.5" and one miner targeting
it: the accrual code keeps one counter per distinct address. -/
def c4SharedAddrPods : List Pod :=
  [procPodAt "p1" "10.0.0.5", procPodAt "p2" "10.0.0.5", minerPodAt "m1" "10.0.0.5"]

/-- Counterexample to claim C4 as stated: with two processor workloads
sharing one assigned address and one miner targeting it, the accrual tick
adds 1 (one counter per distinct address), not the claim's per-workload
sum 2 (one `min(k, 3)` term for each processor workload). -/
theorem C4_counterexample :
    earnTick 0 c4SharedAddrPods ≠ some (usizeSatAdd 0 (perWorkloadAccrual c4SharedAddrPods)) ∧
    earnTick 0 c4SharedAddrPods = some 1 ∧
    perWorkloadAccrual c4SharedAddrPods = 2 := by
  refine ⟨?_, by decide, by decide⟩
  decide

/-- Claim C4, amended: one accrual tick adds to credits (saturating) the
sum over the distinct assigned addresses of processor-labeled workloads of
`min(k, 3)`, where `k` is the number of miner-labeled workloads whose
`TARGET` value equals that address (a processor targeted by 5 miners
contributes exactly 3; miners targeting no known processor address
contribute 0; processors sharing one address contribute a single term) —
provided no miner-labeled workload has an empty container list (the fault
of C10). -/
theorem C4_accrual_capped_sum (credits : Nat) (pods : List Pod)
    (h : ∀ p ∈ pods, isMiner p = true → ∀ s, p.spec = some s → s.containers ≠ []) :
    earnTick credits pods = some (usizeSatAdd credits (perAddressAccrual pods)) := by
  have h2 : ∀ p ∈ pods, isMiner p = true → (minerTargetIp p).isSome = true := by
    intro p hp hm
    cases ht : minerTargetIp p with
    | some o => rfl
    | none =>
      rcases (minerTargetIp_eq_none_iff p).mp ht with ⟨s, hs, hc⟩
      exact absurd hc (h p hp hm s hs)
  rw [earnTick, earnedCredits_eq_perAddress pods h2]
  rfl

/-- The amended C4's shape on a concrete snapshot: one processor at
"10.0.0.5", five miners targeting it, one miner targeting an address no
processor has. -/
def c4CappedPods : List Pod :=
  [procPodAt "p1" "10.0.0.5",
   minerPodAt "m1" "10.0.0.5", minerPodAt "m2" "10.0.0.5", minerPodAt "m3" "10.0.0.5",
   minerPodAt "m4" "10.0.0.5", minerPodAt "m5" "10.0.0.5",
   minerPodAt "m6" "10.9.9.9"]

/-- Witness for C4's amended statement: the five miners feeding one
processor contribute the capped 3, the stray miner contributes 0, and the
tick adds exactly 3. -/
theorem C4_accrual_capped_sum_witness :
    earnTick 0 c4CappedPods = some (usizeSatAdd 0 (perAddressAccrual c4CappedPods)) ∧
    perAddressAccrual c4CappedPods = 3 ∧
    earnTick 0 c4CappedPods = some 3 :=
  ⟨C4_accrual_capped_sum 0 c4CappedPods (by decide), by decide, by decide⟩
